import Mathlib

/-!
Shallow embedding of the go-freeipa client library (package `freeipa`):
the dynamic JSON value tree, the response envelope and its accessor layer
(`response.go`), the request builder and `Do` retry logic (`client.go` /
request code), and the unauthorized-error classifier.

Go's `interface{}` values decoded from JSON are modelled by `JValue`;
Go type assertions `v.(T)` become the partial projections `asBool`,
`asStr`, `asArr`, `asObj`.  Go `map[string]interface{}` is modelled as an
association list with unique-key overwrite semantics (`setKey`) and first
match lookup (`lookupKey`).  Go functions that can panic (slice indexing
out of range, assignment into a nil map) return in `GoRes`, whose
`panics` constructor marks a runtime panic.
-/

set_option autoImplicit false

namespace Freeipa

/-- A decoded JSON value, as produced by Go's `encoding/json` into
`interface{}`.  `null` also stands for the nil interface. -/
inductive JValue where
  | null
  | bool (b : Bool)
  | num (x : Int)
  | str (s : String)
  | arr (elems : List JValue)
  | obj (fields : List (String × JValue))
deriving Repr, Inhabited

/-- Go type assertion `v.(bool)`. -/
def JValue.asBool : JValue → Option Bool
  | .bool b => some b
  | _ => none

/-- Go type assertion `v.(string)`. -/
def JValue.asStr : JValue → Option String
  | .str s => some s
  | _ => none

/-- Go type assertion `v.([]interface{})`. -/
def JValue.asArr : JValue → Option (List JValue)
  | .arr a => some a
  | _ => none

/-- Go type assertion `v.(map[string]interface{})`. -/
def JValue.asObj : JValue → Option (List (String × JValue))
  | .obj m => some m
  | _ => none

/-- A scalar in the sense of the spec's data model: a bare value that is
neither a list nor a mapping. -/
def JValue.isScalar : JValue → Bool
  | .null => true
  | .bool _ => true
  | .num _ => true
  | .str _ => true
  | _ => false

/-- Go map read `m[k]` with its `ok` flag (first matching key). -/
def lookupKey (m : List (String × JValue)) (k : String) : Option JValue :=
  match m with
  | [] => none
  | (k', v) :: rest => if k' = k then some v else lookupKey rest k

/-- Go map assignment `m[k] = v`: overwrite the existing entry or append. -/
def setKey (m : List (String × JValue)) (k : String) (v : JValue) :
    List (String × JValue) :=
  match m with
  | [] => [(k, v)]
  | (k', v') :: rest => if k' = k then (k, v) :: rest else (k', v') :: setKey rest k v

/-- Outcome of a Go computation that may panic at runtime. -/
inductive GoRes (α : Type) where
  | panics
  | ok (val : α)
deriving Repr

/-- Go slice indexing `a[i]` with an `int` index: panics unless
`0 ≤ i < len a`. -/
def goIndex (a : List JValue) (i : Int) : GoRes JValue :=
  if 0 ≤ i then
    match a.get? i.toNat with
    | some v => .ok v
    | none => .panics
  else .panics

/-- `Message`: used in providing extra messages and error response. -/
structure Message where
  type : String
  message : String
  code : Int
  name : String
deriving Repr

/-- `Message.string`: `fmt.Sprintf("%v (%v): %v", t.Name, t.Code, t.Message)`. -/
def Message.string (t : Message) : String :=
  t.name ++ " (" ++ toString t.code ++ "): " ++ t.message

/-- `Result`: standard result in response from FreeIPA.  The `result`
field is the polymorphic payload (`interface{}`). -/
structure Result where
  count : Int
  truncated : Bool
  messages : List Message
  result : JValue
  summary : String
  value : String
deriving Repr

/-- `Response`: standard response from FreeIPA.  The Go pointers
`*Message` / `*Result` (nil when the JSON field is absent or null) are
modelled with `Option`. -/
structure Response where
  error : Option Message
  result : Option Result
  version : String
  principal : String
deriving Repr

/-- The characters Go's formatter treats as flags (`#`, `0`, `+`, `-`,
space).  With zero operands the fast path for lowercase verbs inside the
flag loop is disabled, so any other character ends the flag run. -/
def isFmtFlag (c : Char) : Bool :=
  c = '#' || c = '0' || c = '+' || c = '-' || c = ' '

/-- ASCII digit test, as in Go `fmt`'s `parsenum`. -/
def isFmtDigit (c : Char) : Bool := '0' ≤ c && c ≤ '9'

/-- Go `fmt`'s `parsenum` for width/precision, tracking the accumulated
value for its overflow guard (`tooLarge`, threshold `1e6`, checked before
each further digit): consumes the digit run and returns the remaining
characters; on overflow Go jumps the scan to the end of the format
(`newi = end`), modelled by returning the empty remainder. -/
def fmtParsenum (num : Nat) : List Char → List Char
  | [] => []
  | c :: rest =>
    if isFmtDigit c then
      if num > 1000000 then []
      else fmtParsenum (num * 10 + (c.toNat - 48)) rest
    else c :: rest

/-- The digit-run validity check of Go `fmt`'s `parseArgNumber`: the run
between `[` and `]` must be all digits without `parsenum` overflow
(non-emptiness is checked at the call site). -/
def fmtIndexDigitsOk (num : Nat) : List Char → Bool
  | [] => true
  | c :: rest =>
    isFmtDigit c && !(num > 1000000) &&
      fmtIndexDigitsOk (num * 10 + (c.toNat - 48)) rest

/-- Go `pp.argNumber`/`parseArgNumber` specialized to zero operands: a
`[` starts an explicit one-indexed argument number, which with no
operands can never be in range, so it always clears `goodArgNum`;
consumption follows `parseArgNumber` (shorter than `[n]` or no closing
`]` consumes only the `[`; otherwise everything through the first `]`).
Returns (`goodArgNum` cleared, `afterIndex` — the well-formed-number
flag Go reports, remaining characters). -/
def fmtArgNumber : List Char → Bool × Bool × List Char
  | '[' :: t =>
    if t.length < 2 then (true, false, t)
    else
      match t.findIdx? (fun c => c = ']') with
      | none => (true, false, t)
      | some j => (true, (j != 0) && fmtIndexDigitsOk 0 (t.take j), t.drop (j + 1))
  | l => (false, false, l)

/-- One verb of Go `fmt.doPrintf` specialized to zero operands, starting
just after the `%`: flags, an optional explicit argument index, width
(`*` emits `%!(BADWIDTH)` since there is no operand to consume),
precision (a `.` only when not the last character; `*` emits
`%!(BADPREC)`), a second argument-index attempt when none was found, and
finally the verb: `%` emits a literal percent ignoring width and
precision, a cleared `goodArgNum` emits `%!v(BADINDEX)`, and any other
verb has no operand left and emits `%!v(MISSING)`; running out of
characters before a verb emits `%!(NOVERB)` and stops.  Returns the
emitted text and the remaining format (`none` after `%!(NOVERB)`). -/
def fmtStepVerb (rest : List Char) : String × Option (List Char) :=
  let r1 := rest.dropWhile isFmtFlag
  let a1 := fmtArgNumber r1
  let bad1 := a1.1
  let afterIndex1 := a1.2.1
  let r2 := a1.2.2
  let w : String × Bool × List Char :=
    match r2 with
    | '*' :: t => ("%!(BADWIDTH)", false, t)
    | _ => ("", afterIndex1, fmtParsenum 0 r2)
  let emitW := w.1
  let afterIndex2 := w.2.1
  let r3 := w.2.2
  let pr : String × Bool × List Char :=
    match r3 with
    | '.' :: t =>
      if t.isEmpty then ("", afterIndex2, r3)
      else
        match t with
        | '*' :: t2 => ("%!(BADPREC)", false, t2)
        | _ => ("", afterIndex2, fmtParsenum 0 t)
    | _ => ("", afterIndex2, r3)
  let emitP := pr.1
  let afterIndex3 := pr.2.1
  let r4 := pr.2.2
  let a2 := if afterIndex3 then (false, afterIndex3, r4) else fmtArgNumber r4
  let bad := bad1 || a2.1
  let r5 := a2.2.2
  match r5 with
  | [] => (emitW ++ emitP ++ "%!(NOVERB)", none)
  | verb :: r6 =>
    if verb = '%' then (emitW ++ emitP ++ "%", some r6)
    else if bad then
      (emitW ++ emitP ++ "%!" ++ verb.toString ++ "(BADINDEX)", some r6)
    else (emitW ++ emitP ++ "%!" ++ verb.toString ++ "(MISSING)", some r6)

/-- Go `fmt.doPrintf` specialized to zero operands: literal characters
are copied, each `%` starts one verb.  The recursion carries fuel; every
iteration consumes at least one character of the format (a literal
character, or the verb group which always consumes at least its verb), so
the initial fuel `length + 1` is never exhausted. -/
def doPrintfNoOperands : Nat → List Char → List Char
  | 0, _ => []
  | _ + 1, [] => []
  | fuel + 1, c :: rest =>
    if c = '%' then
      match fmtStepVerb rest with
      | (out, none) => out.data
      | (out, some r) => out.data ++ doPrintfNoOperands fuel r
    else c :: doPrintfNoOperands fuel rest

/-- Go `fmt.Sprintf(format)` with no operands: the reinterpretation a
string undergoes when it is passed to `fmt.Errorf` as the format with no
further arguments, as `ParseResponse` does with `res.Error.string()`.
On a format without `%` this is the identity. -/
def fmtSprintfNoOperands (format : String) : String :=
  ⟨doPrintfNoOperands (format.data.length + 1) format.data⟩

/-- `ParseResponse`: parse a response from a reader.  The JSON decoding
step itself (`json.NewDecoder(body).Decode`) is modelled by the `decoded`
argument: `.error e` is a decoder failure on malformed JSON carrying the
decoder's error, `.ok res` is the decoded envelope.  Both failure
branches call `fmt.Errorf` with the message as the format string and no
operands, so the message goes through `fmtSprintfNoOperands` — for
`res.Error.string()` this mangles `%` sequences in the server-supplied
name and message. -/
def ParseResponse (decoded : Except String Response) : Except String Response :=
  match decoded with
  | .error e => .error e
  | .ok res =>
    match res.error with
    | some m => .error (fmtSprintfNoOperands m.string)
    | none =>
      match res.result with
      | none => .error (fmtSprintfNoOperands "no result in response")
      | some _ => .ok res

/-- `BoolResult`: decode results which are boolean formatted. -/
def Response.BoolResult (r : Response) : Bool :=
  match r.result with
  | none => false
  | some res =>
    match res.result.asBool with
    | none => false
    | some v => v

/-- `CountResults`: count the number of results that this request has. -/
def Response.CountResults (r : Response) : Int :=
  match r.result with
  | none => -1
  | some res =>
    match res.result.asArr with
    | none => -1
    | some a => (a.length : Int)

/-- `DictAtIndex`: return dictionary at index.  The source's bounds check
is `if len(a) < index { return nil, false }`, after which `a[index]` is
read; `goIndex` makes the resulting panic cases explicit. -/
def Response.DictAtIndex (r : Response) (index : Int) :
    GoRes (Option (List (String × JValue))) :=
  match r.result with
  | none => .ok none
  | some res =>
    match res.result.asArr with
    | none => .ok none
    | some a =>
      if (a.length : Int) < index then .ok none
      else
        match goIndex a index with
        | .panics => .panics
        | .ok d => .ok d.asObj

/-- `Dict`: return dictionary. -/
def Response.Dict (r : Response) : Option (List (String × JValue)) :=
  match r.result with
  | none => none
  | some res => res.result.asObj

/-- `GetAtIndex`: get an interface for a key at an index.  A non-list
stored value is wrapped into a one-element list (the source's
scalar-vs-list normalization). -/
def Response.GetAtIndex (r : Response) (index : Int) (key : String) :
    GoRes (Option (List JValue)) :=
  match r.DictAtIndex index with
  | .panics => .panics
  | .ok none => .ok none
  | .ok (some dict) =>
    match lookupKey dict key with
    | none => .ok none
    | some v =>
      match v.asArr with
      | none => .ok (some [v])
      | some a => .ok (some a)

/-- `Get`: get an interface for a key, with the same scalar-vs-list
normalization as `GetAtIndex`. -/
def Response.Get (r : Response) (key : String) : Option (List JValue) :=
  match r.Dict with
  | none => none
  | some dict =>
    match lookupKey dict key with
    | none => none
    | some v =>
      match v.asArr with
      | none => some [v]
      | some a => some a

/-- `KeysAtIndex`: get all keys at index. -/
def Response.KeysAtIndex (r : Response) (index : Int) : GoRes (List String × Bool) :=
  match r.DictAtIndex index with
  | .panics => .panics
  | .ok none => .ok ([], false)
  | .ok (some dict) => .ok (dict.map Prod.fst, true)

/-- `Keys`: get all keys. -/
def Response.Keys (r : Response) : List String × Bool :=
  match r.Dict with
  | none => ([], false)
  | some dict => (dict.map Prod.fst, true)

/-- `processBool`: process sub element with bool.  Returns Go's
`(value, ok)` pair. -/
def Response.processBool (r : Response) (v : JValue) : Bool × Bool :=
  match v.asBool with
  | none => (false, false)
  | some a => (a, true)

/-- `GetBoolAtIndex`: get a boolean from a key at an index. -/
def Response.GetBoolAtIndex (r : Response) (index : Int) (key : String) :
    GoRes (Bool × Bool) :=
  match r.GetAtIndex index key with
  | .panics => .panics
  | .ok none => .ok (false, false)
  | .ok (some v) =>
    match v with
    | [] => .ok (false, false)
    | x :: _ => .ok (r.processBool x)

/-- `GetBool`: get a boolean from a key. -/
def Response.GetBool (r : Response) (key : String) : Bool × Bool :=
  match r.Get key with
  | none => (false, false)
  | some v =>
    match v with
    | [] => (false, false)
    | x :: _ => r.processBool x

/-- `processString`: process sub element with string.  Accumulates the
string elements in order; the first non-string element stops the loop and
the pair's flag is `false` (Go returns the partial `res` with `false`). -/
def Response.processString (r : Response) (v : List JValue) : List String × Bool :=
  match v with
  | [] => ([], true)
  | p :: rest =>
    match p.asStr with
    | none => ([], false)
    | some s =>
      match r.processString rest with
      | (res, ok) => (s :: res, ok)

/-- `GetStringsAtIndex`: get string values for a key at an index. -/
def Response.GetStringsAtIndex (r : Response) (index : Int) (key : String) :
    GoRes (List String × Bool) :=
  match r.GetAtIndex index key with
  | .panics => .panics
  | .ok none => .ok ([], false)
  | .ok (some v) => .ok (r.processString v)

/-- `GetStrings`: get string values for a key. -/
def Response.GetStrings (r : Response) (key : String) : List String × Bool :=
  match r.Get key with
  | none => ([], false)
  | some v => r.processString v

/-- `GetStringAtIndex`: get string value for a key at an index. -/
def Response.GetStringAtIndex (r : Response) (index : Int) (key : String) :
    GoRes (String × Bool) :=
  match r.GetStringsAtIndex index key with
  | .panics => .panics
  | .ok (v, ok) =>
    if !ok || v.length < 1 then .ok ("", false)
    else .ok (v.headD "", true)

/-- `GetString`: get string value for a key. -/
def Response.GetString (r : Response) (key : String) : String × Bool :=
  match r.GetStrings key with
  | (v, ok) =>
    if !ok || v.length < 1 then ("", false)
    else (v.headD "", true)

/-- One sextet of the standard base64 alphabet, or `none` for a character
outside it. -/
def base64Sextet (c : Char) : Option Nat :=
  if 'A' ≤ c ∧ c ≤ 'Z' then some (c.toNat - 65)
  else if 'a' ≤ c ∧ c ≤ 'z' then some (c.toNat - 97 + 26)
  else if '0' ≤ c ∧ c ≤ '9' then some (c.toNat - 48 + 52)
  else if c = '+' then some 62
  else if c = '/' then some 63
  else none

/-- Decode a run of base64 characters four at a time, with `=` padding
allowed only at the very end.  Bytes are `Nat`s below 256. -/
def base64Groups : List Char → Option (List Nat)
  | [] => some []
  | c1 :: c2 :: c3 :: c4 :: rest => do
    let s1 ← base64Sextet c1
    let s2 ← base64Sextet c2
    if c3 = '=' then
      if c4 = '=' ∧ rest = [] then some [(s1 * 4 + s2 / 16) % 256] else none
    else do
      let s3 ← base64Sextet c3
      if c4 = '=' then
        if rest = [] then
          some [(s1 * 4 + s2 / 16) % 256, (s2 * 16 + s3 / 4) % 256]
        else none
      else do
        let s4 ← base64Sextet c4
        let tail ← base64Groups rest
        some ((s1 * 4 + s2 / 16) % 256 :: (s2 * 16 + s3 / 4) % 256 ::
          (s3 * 64 + s4) % 256 :: tail)
  | _ => none

/-- Model of Go's `base64.StdEncoding.DecodeString`: newline characters
are skipped, everything else must be well-formed padded base64. -/
def base64DecodeString (s : String) : Option (List Nat) :=
  base64Groups (s.data.filter (fun c => c ≠ '\n' ∧ c ≠ '\r'))

/-- `processData`: process sub element with bytes.  Each element must be a
mapping with a `__base64__` entry holding a base64 string. -/
def Response.processData (r : Response) (v : List JValue) :
    List (List Nat) × Bool :=
  match v with
  | [] => ([], true)
  | p :: rest =>
    match p.asObj with
    | none => ([], false)
    | some dict =>
      match lookupKey dict "__base64__" with
      | none => ([], false)
      | some b =>
        match b.asStr with
        | none => ([], false)
        | some s =>
          match base64DecodeString s with
          | none => ([], false)
          | some bytes =>
            match r.processData rest with
            | (res, ok) => (bytes :: res, ok)

/-- `GetDatasAtIndex`: get byte arrays for a key at an index. -/
def Response.GetDatasAtIndex (r : Response) (index : Int) (key : String) :
    GoRes (List (List Nat) × Bool) :=
  match r.GetAtIndex index key with
  | .panics => .panics
  | .ok none => .ok ([], false)
  | .ok (some v) => .ok (r.processData v)

/-- `GetDatas`: get byte arrays for a key. -/
def Response.GetDatas (r : Response) (key : String) : List (List Nat) × Bool :=
  match r.Get key with
  | none => ([], false)
  | some v => r.processData v

/-- `GetDataAtIndex`: get a byte array for a key at an index. -/
def Response.GetDataAtIndex (r : Response) (index : Int) (key : String) :
    GoRes (List Nat × Bool) :=
  match r.GetDatasAtIndex index key with
  | .panics => .panics
  | .ok (v, ok) =>
    if !ok || v.length < 1 then .ok ([], false)
    else .ok (v.headD [], true)

/-- `GetData`: get a byte array for a key. -/
def Response.GetData (r : Response) (key : String) : List Nat × Bool :=
  match r.GetDatas key with
  | (v, ok) =>
    if !ok || v.length < 1 then ([], false)
    else (v.headD [], true)

/-- A calendar timestamp as parsed from LDAP generalized time (the
observable fields of Go's `time.Time` for this fixed UTC layout). -/
structure GoTime where
  year : Nat
  month : Nat
  day : Nat
  hour : Nat
  minute : Nat
  second : Nat
deriving Repr, DecidableEq

/-- Number of days in a month, with the Gregorian leap-year rule. -/
def daysInMonth (year month : Nat) : Nat :=
  if month = 2 then
    if year % 4 = 0 ∧ (year % 100 ≠ 0 ∨ year % 400 = 0) then 29 else 28
  else if month = 4 ∨ month = 6 ∨ month = 9 ∨ month = 11 then 30
  else 31

/-- Numeric value of a run of ASCII digits, `none` if any character is not
a digit. -/
def digitsToNat : List Char → Option Nat
  | [] => some 0
  | c :: rest =>
    if '0' ≤ c ∧ c ≤ '9' then
      (digitsToNat rest).map (fun n => (c.toNat - 48) * 10 ^ rest.length + n)
    else none

/-- Model of Go's `time.Parse(LDAPGeneralizedTimeFormat, s)` for the fixed
layout `20060102150405Z`: exactly fourteen digits followed by a literal
`Z`, with the component range checks `time.Parse` performs. -/
def parseLDAPTime (s : String) : Option GoTime :=
  match s.data with
  | [y1, y2, y3, y4, mo1, mo2, d1, d2, h1, h2, mi1, mi2, s1, s2, 'Z'] => do
    let year ← digitsToNat [y1, y2, y3, y4]
    let month ← digitsToNat [mo1, mo2]
    let day ← digitsToNat [d1, d2]
    let hour ← digitsToNat [h1, h2]
    let minute ← digitsToNat [mi1, mi2]
    let second ← digitsToNat [s1, s2]
    if 1 ≤ month ∧ month ≤ 12 ∧ 1 ≤ day ∧ day ≤ daysInMonth year month ∧
        hour ≤ 23 ∧ minute ≤ 59 ∧ second ≤ 59 then
      some ⟨year, month, day, hour, minute, second⟩
    else none
  | _ => none

/-- `processDateTime`: process sub element with a date/time value.  Each
element must be a mapping with a `__datetime__` entry holding a string in
the LDAP generalized time layout. -/
def Response.processDateTime (r : Response) (v : List JValue) :
    List GoTime × Bool :=
  match v with
  | [] => ([], true)
  | p :: rest =>
    match p.asObj with
    | none => ([], false)
    | some dict =>
      match lookupKey dict "__datetime__" with
      | none => ([], false)
      | some d =>
        match d.asStr with
        | none => ([], false)
        | some s =>
          match parseLDAPTime s with
          | none => ([], false)
          | some dateTime =>
            match r.processDateTime rest with
            | (res, ok) => (dateTime :: res, ok)

/-- `GetDateTimesAtIndex`: get date time values for a key at an index. -/
def Response.GetDateTimesAtIndex (r : Response) (index : Int) (key : String) :
    GoRes (List GoTime × Bool) :=
  match r.GetAtIndex index key with
  | .panics => .panics
  | .ok none => .ok ([], false)
  | .ok (some v) => .ok (r.processDateTime v)

/-- `GetDateTimes`: get date time values for a key. -/
def Response.GetDateTimes (r : Response) (key : String) : List GoTime × Bool :=
  match r.Get key with
  | none => ([], false)
  | some v => r.processDateTime v

/-- `GetDateTimeAtIndex`: get a date time value for a key at an index. -/
def Response.GetDateTimeAtIndex (r : Response) (index : Int) (key : String) :
    GoRes (GoTime × Bool) :=
  match r.GetDateTimesAtIndex index key with
  | .panics => .panics
  | .ok (v, ok) =>
    if !ok || v.length < 1 then .ok (⟨1, 1, 1, 0, 0, 0⟩, false)
    else .ok (v.headD ⟨1, 1, 1, 0, 0, 0⟩, true)

/-- `GetDateTime`: get a date time value for a key.  Go's zero
`time.Time{}` is year 1, January 1. -/
def Response.GetDateTime (r : Response) (key : String) : GoTime × Bool :=
  match r.GetDateTimes key with
  | (v, ok) =>
    if !ok || v.length < 1 then (⟨1, 1, 1, 0, 0, 0⟩, false)
    else (v.headD ⟨1, 1, 1, 0, 0, 0⟩, true)

/-- Standard FreeIPA error code `InvalidSessionPasswordCode`. -/
def InvalidSessionPasswordCode : Int := 1201

/-- Standard FreeIPA error code `PasswordExpiredCode`. -/
def PasswordExpiredCode : Int := 1202

/-- Standard FreeIPA error code `KrbPrincipalExpiredCode`. -/
def KrbPrincipalExpiredCode : Int := 1203

/-- Standard FreeIPA error code `UserLockedCode`. -/
def UserLockedCode : Int := 1204

/-- Standard FreeIPA error code `GenericErrorCode`. -/
def GenericErrorCode : Int := 5000

/-- Authentication rejection reason `password-expired`. -/
def passwordExpiredUnauthorizedReason : String := "password-expired"

/-- Authentication rejection reason `invalid-password`. -/
def invalidSessionPasswordUnauthorizedReason : String := "invalid-password"

/-- Authentication rejection reason `krbprincipal-expired`. -/
def krbPrincipalExpiredUnauthorizedReason : String := "krbprincipal-expired"

/-- Authentication rejection reason `user-locked`. -/
def userLockedUnauthorizedReason : String := "user-locked"

/-- `unauthorizedHTTPError`: add information from the rejection reason
header to the unauthorized error.  `rejectionReason` is the value of the
`X-Ipa-Rejection-Reason` response header (`Header.Get` returns `""` when
the header is absent); the result is the error's message string. -/
def unauthorizedHTTPError (rejectionReason : String) : String :=
  let errorCode : Int :=
    if rejectionReason = passwordExpiredUnauthorizedReason then PasswordExpiredCode
    else if rejectionReason = invalidSessionPasswordUnauthorizedReason then
      InvalidSessionPasswordCode
    else if rejectionReason = krbPrincipalExpiredUnauthorizedReason then
      KrbPrincipalExpiredCode
    else if rejectionReason = userLockedUnauthorizedReason then UserLockedCode
    else GenericErrorCode
  "unauthorized response <" ++ rejectionReason ++ "> (" ++ toString errorCode ++ ")"

/-- Standard API version definition (`var apiVersion = "2.237"`). -/
def apiVersion : String := "2.237"

/-- `Request`: the request wire format, `{"method": ..., "params": ...}`. -/
structure Request where
  method : String
  params : List JValue
deriving Repr

/-- `NewRequest`: create a new API request.  The Go parameter `parms` is a
`map[string]interface{}`, which may be nil (`none`); the builder's first
statement `parms["version"] = apiVersion` panics on a nil map and
otherwise mutates the caller's map in place, modelled here by the updated
map appearing in the built request. -/
def NewRequest (method : String) (args : List JValue)
    (parms : Option (List (String × JValue))) : GoRes Request :=
  match parms with
  | none => .panics
  | some m =>
    let m' := setKey m "version" (.str apiVersion)
    .ok { method := method, params := [.arr args, .obj m'] }

/-- An HTTP response as `Do` observes it: the status code and the decoding
outcome of its body (the input later handed to `ParseResponse`). -/
structure HTTPResponse where
  statusCode : Int
  body : Except String Response

/-- Outcome of one `sendRequest` call: a transport error or a response. -/
inductive SendOutcome where
  | err (e : String)
  | resp (r : HTTPResponse)

/-- Outcome of one `login()` call. -/
inductive LoginOutcome where
  | err (e : String)
  | ok

/-- The tail of `Do` after the retry logic: non-200 reports an
unexpected-status failure, 200 hands the body to `ParseResponse`. -/
def statusCheck (r : HTTPResponse) : Except String Response :=
  if r.statusCode ≠ 200 then
    .error ("unexpected http status code: " ++ toString r.statusCode)
  else ParseResponse r.body

/-- The observable trace of one `Do` call: its result and how many
`sendRequest` and `login` calls it made. -/
structure DoTrace where
  result : Except String Response
  sendCount : Nat
  loginCount : Nat
deriving Repr

/-- `Do`: have the client perform the request.  The network is modelled by
the outcome of the first send, of the (at most one) re-login, and of the
(at most one. resent) second send; the control flow is the source's: a 401
first response triggers one `login()`, whose failure is wrapped as
`"renewed login failed: %s"`, and whose success leads to exactly one
resend whose response then goes through the common status check. -/
def clientDo (send1 : SendOutcome) (login : LoginOutcome)
    (send2 : SendOutcome) : DoTrace :=
  match send1 with
  | .err e => { result := .error e, sendCount := 1, loginCount := 0 }
  | .resp r1 =>
    if r1.statusCode = 401 then
      match login with
      | .err e =>
        { result := .error ("renewed login failed: " ++ e),
          sendCount := 1, loginCount := 1 }
      | .ok =>
        match send2 with
        | .err e => { result := .error e, sendCount := 2, loginCount := 1 }
        | .resp r2 => { result := statusCheck r2, sendCount := 2, loginCount := 1 }
    else { result := statusCheck r1, sendCount := 1, loginCount := 0 }

/-! ### Helper lemmas -/

/-- Writing a key and reading it back yields the written value, whether or
not the key was already present. -/
theorem lookupKey_setKey_self (m : List (String × JValue)) (k : String) (v : JValue) :
    lookupKey (setKey m k v) k = some v := by
  induction m with
  | nil => simp [setKey, lookupKey]
  | cons hd tl ih =>
    by_cases h : hd.1 = k
    · simp [setKey, h, lookupKey]
    · simp [setKey, h, lookupKey, ih]

/-- The renewed-login failure message can never coincide with the plain
unexpected-status message for a 401: the two messages differ in their
first character. -/
theorem renewed_login_msg_ne (e : String) :
    "renewed login failed: " ++ e ≠ "unexpected http status code: 401" := by
  intro h
  have h3 : "renewed login failed: ".data ++ e.data =
      ("unexpected http status code: 401").data := congrArg String.data h
  have h4 := congrArg List.head? h3
  simp [String.data] at h4

/-- A scalar is not a list, so the list type assertion on it fails. -/
theorem isScalar_asArr_none (v : JValue) (h : v.isScalar = true) : v.asArr = none := by
  cases v <;> simp_all [JValue.isScalar, JValue.asArr]

/-! ### Claim theorems -/

/-- Claim C1 (code bug witnessed): the source's bounds check
`if len(a) < index` lets `index = len(a)` and every negative `index`
through to `a[index]`, which panics, contradicting the claim (and the
source's own `Make sure we don't overflow` comment) that every invalid
index yields absent.  On a two-element list payload, index `2` and index
`-1` panic in both `DictAtIndex` and `GetAtIndex`, and on an empty list
payload index `0` panics; only indices strictly greater than the length
are caught (index `3` returns absent). -/
theorem dictAtIndex_bounds_check_panics :
    Response.DictAtIndex ⟨none, some ⟨0, false, [], .arr [], "", ""⟩, "", ""⟩ 0 =
      .panics ∧
    Response.DictAtIndex
      ⟨none, some ⟨2, false, [], .arr [.obj [], .obj []], "", ""⟩, "", ""⟩ 2 =
      .panics ∧
    Response.DictAtIndex
      ⟨none, some ⟨2, false, [], .arr [.obj [], .obj []], "", ""⟩, "", ""⟩ (-1) =
      .panics ∧
    Response.GetAtIndex
      ⟨none, some ⟨2, false, [], .arr [.obj [], .obj []], "", ""⟩, "", ""⟩ 2 "uid" =
      .panics ∧
    Response.GetAtIndex
      ⟨none, some ⟨0, false, [], .arr [], "", ""⟩, "", ""⟩ 0 "uid" =
      .panics ∧
    Response.DictAtIndex
      ⟨none, some ⟨2, false, [], .arr [.obj [], .obj []], "", ""⟩, "", ""⟩ 3 =
      .ok none :=
  ⟨rfl, rfl, rfl, rfl, rfl, rfl⟩

/-- Claim C2: a 401 on the first send triggers exactly one re-login.  If
the re-login fails the call fails with the renewed-login message wrapping
the login error, and that message is distinguishable from the plain
unexpected-status message a second 401 would produce; if the re-login
succeeds the request is resent exactly once and the second response's
outcome is used, any second non-200 status (a second 401 included)
surfacing as an unexpected-status failure with no further login or
resend. -/
theorem clientDo_401_single_relogin (r1 : HTTPResponse) (login : LoginOutcome)
    (send2 : SendOutcome) (h401 : r1.statusCode = 401) :
    (∀ e, login = .err e →
       clientDo (.resp r1) login send2 =
         ⟨.error ("renewed login failed: " ++ e), 1, 1⟩ ∧
       "renewed login failed: " ++ e ≠ "unexpected http status code: 401") ∧
    (login = .ok →
       (clientDo (.resp r1) login send2).sendCount = 2 ∧
       (clientDo (.resp r1) login send2).loginCount = 1 ∧
       ∀ r2, send2 = .resp r2 →
         (clientDo (.resp r1) login send2).result = statusCheck r2 ∧
         (r2.statusCode ≠ 200 →
           (clientDo (.resp r1) login send2).result =
             .error ("unexpected http status code: " ++ toString r2.statusCode))) := by
  refine ⟨?_, ?_⟩
  · rintro e rfl
    exact ⟨by simp [clientDo, h401], renewed_login_msg_ne e⟩
  · rintro rfl
    cases send2 with
    | err e2 => exact ⟨by simp [clientDo, h401], by simp [clientDo, h401],
        fun r2 h => by cases h⟩
    | resp r2 =>
      refine ⟨by simp [clientDo, h401], by simp [clientDo, h401], ?_⟩
      rintro r2' h
      cases h
      refine ⟨by simp [clientDo, h401], ?_⟩
      intro h200
      simp [clientDo, h401, statusCheck, h200]

/-- Witness for claim C2 at concrete inputs: a 401 followed by a failing
re-login, and a 401 followed by a successful re-login whose resent
request gets a second 401. -/
theorem clientDo_401_single_relogin_witness :
    clientDo (.resp ⟨401, .error "x"⟩) (.err "bad credentials") (.err "y") =
      ⟨.error "renewed login failed: bad credentials", 1, 1⟩ ∧
    "renewed login failed: bad credentials" ≠ "unexpected http status code: 401" ∧
    (clientDo (.resp ⟨401, .error "x"⟩) .ok (.resp ⟨401, .error "y"⟩)).result =
      .error "unexpected http status code: 401" ∧
    (clientDo (.resp ⟨401, .error "x"⟩) .ok (.resp ⟨401, .error "y"⟩)).sendCount = 2 ∧
    (clientDo (.resp ⟨401, .error "x"⟩) .ok (.resp ⟨401, .error "y"⟩)).loginCount = 1 := by
  have h := clientDo_401_single_relogin ⟨401, .error "x"⟩ (.err "bad credentials")
    (.err "y") rfl
  have h2 := clientDo_401_single_relogin ⟨401, .error "x"⟩ .ok
    (.resp ⟨401, .error "y"⟩) rfl
  exact ⟨(h.1 "bad credentials" rfl).1, (h.1 "bad credentials" rfl).2,
    ((h2.2 rfl).2.2 ⟨401, .error "y"⟩ rfl).2 (by decide),
    (h2.2 rfl).1, (h2.2 rfl).2.1⟩

/-- Claim C5: for every method, positional-argument list and (non-nil)
keyword-parameter map, the built request's `params` field is exactly the
two-element array of the positional arguments and the keyword map, and
the keyword map contains a `version` entry equal to the fixed protocol
version, overwriting any caller-supplied value of that key. -/
theorem newRequest_params_shape (method : String) (args : List JValue)
    (parms : List (String × JValue)) :
    ∃ kw, NewRequest method args (some parms) =
        .ok ⟨method, [.arr args, .obj kw]⟩ ∧
      kw = setKey parms "version" (.str apiVersion) ∧
      [JValue.arr args, JValue.obj kw].length = 2 ∧
      lookupKey kw "version" = some (.str apiVersion) :=
  ⟨setKey parms "version" (.str apiVersion), rfl, rfl, rfl,
    lookupKey_setKey_self parms "version" (.str apiVersion)⟩

/-- Claim C6: on a 401 during password login the classifier maps the
`X-Ipa-Rejection-Reason` header through the fixed four-entry table
(password-expired maps to 1202, invalid-password to 1201,
krbprincipal-expired to 1203, user-locked to 1204), every other value
(the empty string included) falls back to the generic code 5000, and the
message is exactly `unauthorized response <reason> (code)`. -/
theorem unauthorizedHTTPError_table :
    unauthorizedHTTPError "password-expired" =
      "unauthorized response <password-expired> (1202)" ∧
    unauthorizedHTTPError "invalid-password" =
      "unauthorized response <invalid-password> (1201)" ∧
    unauthorizedHTTPError "krbprincipal-expired" =
      "unauthorized response <krbprincipal-expired> (1203)" ∧
    unauthorizedHTTPError "user-locked" =
      "unauthorized response <user-locked> (1204)" ∧
    unauthorizedHTTPError "" = "unauthorized response <> (5000)" ∧
    ∀ reason, reason ≠ "password-expired" → reason ≠ "invalid-password" →
      reason ≠ "krbprincipal-expired" → reason ≠ "user-locked" →
      unauthorizedHTTPError reason =
        "unauthorized response <" ++ reason ++ "> (5000)" := by
  refine ⟨rfl, rfl, rfl, rfl, rfl, ?_⟩
  intro reason h1 h2 h3 h4
  simp only [unauthorizedHTTPError, passwordExpiredUnauthorizedReason,
    invalidSessionPasswordUnauthorizedReason, krbPrincipalExpiredUnauthorizedReason,
    userLockedUnauthorizedReason, if_neg h1, if_neg h2, if_neg h3, if_neg h4]
  have h5 : "> (" ++ (toString GenericErrorCode ++ ")") = "> (5000)" := rfl
  simp only [String.append_assoc, h5]

/-- Witness for claim C6 at a concrete unrecognized reason. -/
theorem unauthorizedHTTPError_table_witness :
    unauthorizedHTTPError "some-unknown-reason" =
      "unauthorized response <some-unknown-reason> (5000)" :=
  unauthorizedHTTPError_table.2.2.2.2.2 "some-unknown-reason"
    (by decide) (by decide) (by decide) (by decide)

/-- Claim C9: the request builder is not total.  With a nil
keyword-parameter map the first statement `parms["version"] = apiVersion`
is an assignment into a nil map and panics; with any non-nil map the call
succeeds, and the version entry is inserted into the caller-supplied map
itself (modelled by that updated map appearing in the built request). -/
theorem newRequest_nil_map_panics :
    (∀ method args, NewRequest method args none = .panics) ∧
    (∀ method args parms, NewRequest method args (some parms) =
      .ok ⟨method, [.arr args, .obj (setKey parms "version" (.str apiVersion))]⟩) :=
  ⟨fun _ _ => rfl, fun _ _ _ => rfl⟩

/-- Claim C7: `CountResults` returns the payload's length when it is a
list (`0` for the empty list) and the sentinel `-1` when the result is
absent or the payload is not a list; a genuine list never yields `-1`. -/
theorem countResults_spec (r : Response) :
    (r.result = none → r.CountResults = -1) ∧
    (∀ res a, r.result = some res → res.result = .arr a →
       r.CountResults = (a.length : Int) ∧ r.CountResults ≠ -1) ∧
    (∀ res, r.result = some res → res.result.asArr = none → r.CountResults = -1) ∧
    (∀ res, r.result = some res → res.result = .arr [] → r.CountResults = 0) := by
  refine ⟨?_, ?_, ?_, ?_⟩
  · intro h; simp [Response.CountResults, h]
  · intro res a h1 h2
    have hc : r.CountResults = (a.length : Int) := by
      simp [Response.CountResults, h1, h2, JValue.asArr]
    refine ⟨hc, ?_⟩
    rw [hc]; omega
  · intro res h1 h2; simp [Response.CountResults, h1, h2]
  · intro res h1 h2; simp [Response.CountResults, h1, h2, JValue.asArr]

/-- Witness for claim C7: a two-element list payload, an empty list, a
mapping payload, a boolean payload and an absent result. -/
theorem countResults_spec_witness :
    Response.CountResults
      ⟨none, some ⟨2, false, [], .arr [.obj [], .obj []], "", ""⟩, "", ""⟩ = 2 ∧
    Response.CountResults ⟨none, some ⟨0, false, [], .arr [], "", ""⟩, "", ""⟩ = 0 ∧
    Response.CountResults ⟨none, some ⟨0, false, [], .obj [], "", ""⟩, "", ""⟩ = -1 ∧
    Response.CountResults ⟨none, some ⟨0, false, [], .bool true, "", ""⟩, "", ""⟩ = -1 ∧
    Response.CountResults ⟨none, none, "", ""⟩ = -1 :=
  ⟨((countResults_spec _).2.1 _ [.obj [], .obj []] rfl rfl).1,
   (countResults_spec _).2.2.2 _ rfl rfl,
   (countResults_spec _).2.2.1 _ rfl rfl,
   (countResults_spec _).2.2.1 _ rfl rfl,
   (countResults_spec _).1 rfl⟩

/-- Claim C10: `BoolResult` returns a bare boolean with no success
indicator: it returns the payload when the payload is a boolean, and
`false` both when the result is absent and when the payload is not a
boolean at all, so a stored `false`, a missing result and a non-boolean
payload are indistinguishable to the caller. -/
theorem boolResult_conflation (r : Response) :
    (r.result = none → r.BoolResult = false) ∧
    (∀ res, r.result = some res → res.result = .bool false → r.BoolResult = false) ∧
    (∀ res, r.result = some res → res.result.asBool = none → r.BoolResult = false) ∧
    (∀ res b, r.result = some res → res.result = .bool b → r.BoolResult = b) := by
  refine ⟨?_, ?_, ?_, ?_⟩
  · intro h; simp [Response.BoolResult, h]
  · intro res h1 h2; simp [Response.BoolResult, h1, h2, JValue.asBool]
  · intro res h1 h2; simp [Response.BoolResult, h1, h2]
  · intro res b h1 h2; simp [Response.BoolResult, h1, h2, JValue.asBool]

/-- Witness for claim C10: the value `false`, an absent result, a list
payload and a string payload all produce the same `false`. -/
theorem boolResult_conflation_witness :
    Response.BoolResult ⟨none, some ⟨0, false, [], .bool false, "", ""⟩, "", ""⟩ =
      false ∧
    Response.BoolResult ⟨none, none, "", ""⟩ = false ∧
    Response.BoolResult ⟨none, some ⟨0, false, [], .arr [], "", ""⟩, "", ""⟩ = false ∧
    Response.BoolResult ⟨none, some ⟨0, false, [], .str "ok", "", ""⟩, "", ""⟩ = false ∧
    Response.BoolResult ⟨none, some ⟨0, false, [], .bool true, "", ""⟩, "", ""⟩ =
      true :=
  ⟨(boolResult_conflation _).2.1 _ rfl rfl,
   (boolResult_conflation _).1 rfl,
   (boolResult_conflation _).2.2.1 _ rfl rfl,
   (boolResult_conflation _).2.2.1 _ rfl rfl,
   (boolResult_conflation _).2.2.2 _ true rfl rfl⟩

/-- `processString` never reads its receiver. -/
theorem processString_receiver (r r' : Response) (l : List JValue) :
    r.processString l = r'.processString l := by
  induction l with
  | nil => rfl
  | cons p rest ih =>
    cases hp : p.asStr <;> simp [Response.processString, hp, ih]

/-- `processData` never reads its receiver. -/
theorem processData_receiver (r r' : Response) (l : List JValue) :
    r.processData l = r'.processData l := by
  induction l with
  | nil => rfl
  | cons p rest ih => simp only [Response.processData, ih]

/-- `processDateTime` never reads its receiver. -/
theorem processDateTime_receiver (r r' : Response) (l : List JValue) :
    r.processDateTime l = r'.processDateTime l := by
  induction l with
  | nil => rfl
  | cons p rest ih => simp only [Response.processDateTime, ih]

/-- Claim C3: a key whose stored value is a bare scalar `v` and a key
whose stored value is the one-element list `[v]` are indistinguishable
through the whole accessor layer: `Get`, `GetAtIndex`, and every typed
projection built on them (boolean, string, data and date-time, in their
singular and plural, plain and `AtIndex` forms) return identical
results.  `r1`/`r2` hold the two encodings under a mapping payload,
`r3`/`r4` under a list payload addressed at index `i`. -/
theorem accessors_scalar_list_agree
    (r1 r2 r3 r4 : Response) (i : Int) (k : String) (v : JValue)
    (d1 d2 d3 d4 : List (String × JValue))
    (hv : v.isScalar = true)
    (h1 : r1.Dict = some d1) (h2 : r2.Dict = some d2)
    (hk1 : lookupKey d1 k = some v) (hk2 : lookupKey d2 k = some (.arr [v]))
    (h3 : r3.DictAtIndex i = .ok (some d3)) (h4 : r4.DictAtIndex i = .ok (some d4))
    (hk3 : lookupKey d3 k = some v) (hk4 : lookupKey d4 k = some (.arr [v])) :
    r1.Get k = r2.Get k ∧
    r1.GetBool k = r2.GetBool k ∧
    r1.GetStrings k = r2.GetStrings k ∧
    r1.GetString k = r2.GetString k ∧
    r1.GetDatas k = r2.GetDatas k ∧
    r1.GetData k = r2.GetData k ∧
    r1.GetDateTimes k = r2.GetDateTimes k ∧
    r1.GetDateTime k = r2.GetDateTime k ∧
    r3.GetAtIndex i k = r4.GetAtIndex i k ∧
    r3.GetBoolAtIndex i k = r4.GetBoolAtIndex i k ∧
    r3.GetStringsAtIndex i k = r4.GetStringsAtIndex i k ∧
    r3.GetStringAtIndex i k = r4.GetStringAtIndex i k ∧
    r3.GetDatasAtIndex i k = r4.GetDatasAtIndex i k ∧
    r3.GetDataAtIndex i k = r4.GetDataAtIndex i k ∧
    r3.GetDateTimesAtIndex i k = r4.GetDateTimesAtIndex i k ∧
    r3.GetDateTimeAtIndex i k = r4.GetDateTimeAtIndex i k := by
  have harr := isScalar_asArr_none v hv
  have g1 : r1.Get k = some [v] := by simp [Response.Get, h1, hk1, harr]
  have g2 : r2.Get k = some [v] := by simp [Response.Get, h2, hk2, JValue.asArr]
  have g3 : r3.GetAtIndex i k = .ok (some [v]) := by
    simp [Response.GetAtIndex, h3, hk3, harr]
  have g4 : r4.GetAtIndex i k = .ok (some [v]) := by
    simp [Response.GetAtIndex, h4, hk4, JValue.asArr]
  refine ⟨g1.trans g2.symm, ?_, ?_, ?_, ?_, ?_, ?_, ?_,
    g3.trans g4.symm, ?_, ?_, ?_, ?_, ?_, ?_, ?_⟩
  · simp [Response.GetBool, g1, g2, Response.processBool]
  · simp [Response.GetStrings, g1, g2, processString_receiver r1 r2]
  · simp [Response.GetString, Response.GetStrings, g1, g2,
      processString_receiver r1 r2]
  · simp [Response.GetDatas, g1, g2, processData_receiver r1 r2]
  · simp [Response.GetData, Response.GetDatas, g1, g2, processData_receiver r1 r2]
  · simp [Response.GetDateTimes, g1, g2, processDateTime_receiver r1 r2]
  · simp [Response.GetDateTime, Response.GetDateTimes, g1, g2,
      processDateTime_receiver r1 r2]
  · simp [Response.GetBoolAtIndex, g3, g4, Response.processBool]
  · simp [Response.GetStringsAtIndex, g3, g4, processString_receiver r3 r4]
  · simp [Response.GetStringAtIndex, Response.GetStringsAtIndex, g3, g4,
      processString_receiver r3 r4]
  · simp [Response.GetDatasAtIndex, g3, g4, processData_receiver r3 r4]
  · simp [Response.GetDataAtIndex, Response.GetDatasAtIndex, g3, g4,
      processData_receiver r3 r4]
  · simp [Response.GetDateTimesAtIndex, g3, g4, processDateTime_receiver r3 r4]
  · simp [Response.GetDateTimeAtIndex, Response.GetDateTimesAtIndex, g3, g4,
      processDateTime_receiver r3 r4]

/-- A response whose mapping payload stores a bare scalar under `"k"`. -/
def rScalar : Response :=
  ⟨none, some ⟨1, false, [], .obj [("k", .str "a")], "", ""⟩, "", ""⟩

/-- A response whose mapping payload stores the one-element list under `"k"`. -/
def rWrapped : Response :=
  ⟨none, some ⟨1, false, [], .obj [("k", .arr [.str "a"])], "", ""⟩, "", ""⟩

/-- A list-payload response whose first entry stores a bare scalar under `"k"`. -/
def rScalarAt : Response :=
  ⟨none, some ⟨1, false, [], .arr [.obj [("k", .str "a")]], "", ""⟩, "", ""⟩

/-- A list-payload response whose first entry stores the one-element list
under `"k"`. -/
def rWrappedAt : Response :=
  ⟨none, some ⟨1, false, [], .arr [.obj [("k", .arr [.str "a"])]], "", ""⟩, "", ""⟩

/-- Witness for claim C3 at the scalar `"a"`: the bare and wrapped
encodings agree on the raw and string accessors, in the plain and
`AtIndex` paths. -/
theorem accessors_scalar_list_agree_witness :
    rScalar.Get "k" = rWrapped.Get "k" ∧
    rScalar.GetString "k" = rWrapped.GetString "k" ∧
    rScalarAt.GetAtIndex 0 "k" = rWrappedAt.GetAtIndex 0 "k" ∧
    rScalarAt.GetStringAtIndex 0 "k" = rWrappedAt.GetStringAtIndex 0 "k" :=
  have h := accessors_scalar_list_agree rScalar rWrapped rScalarAt rWrappedAt 0 "k"
    (.str "a") [("k", .str "a")] [("k", .arr [.str "a"])] [("k", .str "a")]
    [("k", .arr [.str "a"])] rfl rfl rfl rfl rfl rfl rfl rfl rfl
  ⟨h.1, h.2.2.2.1, h.2.2.2.2.2.2.2.2.1, h.2.2.2.2.2.2.2.2.2.2.2.1⟩

/-- The spec-side characterization of the plural string projection: the
list of the elements' string values when every element is a string,
`none` as soon as any element is not. -/
def strProject : List JValue → Option (List String)
  | [] => some []
  | p :: rest =>
    match p.asStr with
    | none => none
    | some s => (strProject rest).map (fun r => s :: r)

/-- When every element is a string, `processString` succeeds with the
full list of string values. -/
theorem processString_of_strProject_some (r : Response) (vs : List JValue)
    (ss : List String) (h : strProject vs = some ss) :
    r.processString vs = (ss, true) := by
  induction vs generalizing ss with
  | nil =>
    simp [strProject] at h
    simp [Response.processString, h]
  | cons p rest ih =>
    cases hp : p.asStr with
    | none => simp [strProject, hp] at h
    | some s =>
      simp [strProject, hp] at h
      obtain ⟨ss', hss', rfl⟩ := h
      simp [Response.processString, hp, ih ss' hss']

/-- When some element is not a string, `processString` reports failure. -/
theorem processString_of_strProject_none (r : Response) (vs : List JValue)
    (h : strProject vs = none) : (r.processString vs).2 = false := by
  induction vs with
  | nil => simp [strProject] at h
  | cons p rest ih =>
    cases hp : p.asStr with
    | none => simp [Response.processString, hp]
    | some s =>
      simp [strProject, hp] at h
      simp [Response.processString, hp, ih h]

/-- Claim C8: the plural string projections succeed with the full
normalized list exactly when every element of the normalized list is a
string, and fail as soon as any element is not (all-or-nothing); the
singular variants return the first element of a non-empty successful
plural result and fail whenever the plural projection failed or was
empty.  Stated for the plain and `AtIndex` paths (the latter under the
non-panicking outcomes of `GetAtIndex`). -/
theorem string_projection_spec (r : Response) (i : Int) (k : String) :
    (∀ vs, r.Get k = some vs →
       (∀ ss, strProject vs = some ss → r.GetStrings k = (ss, true)) ∧
       (strProject vs = none → (r.GetStrings k).2 = false)) ∧
    (r.Get k = none → r.GetStrings k = ([], false)) ∧
    (∀ vs, r.GetAtIndex i k = .ok (some vs) →
       (∀ ss, strProject vs = some ss → r.GetStringsAtIndex i k = .ok (ss, true)) ∧
       (strProject vs = none →
         ∃ part, r.GetStringsAtIndex i k = .ok (part, false))) ∧
    (r.GetAtIndex i k = .ok none → r.GetStringsAtIndex i k = .ok ([], false)) ∧
    (∀ s rest, r.GetStrings k = (s :: rest, true) → r.GetString k = (s, true)) ∧
    (∀ bad, r.GetStrings k = (bad, false) → r.GetString k = ("", false)) ∧
    (r.GetStrings k = ([], true) → r.GetString k = ("", false)) ∧
    (∀ s rest, r.GetStringsAtIndex i k = .ok (s :: rest, true) →
       r.GetStringAtIndex i k = .ok (s, true)) ∧
    (∀ bad, r.GetStringsAtIndex i k = .ok (bad, false) →
       r.GetStringAtIndex i k = .ok ("", false)) ∧
    (r.GetStringsAtIndex i k = .ok ([], true) →
       r.GetStringAtIndex i k = .ok ("", false)) := by
  refine ⟨?_, ?_, ?_, ?_, ?_, ?_, ?_, ?_, ?_, ?_⟩
  · intro vs hg
    exact ⟨fun ss hs => by
        simp [Response.GetStrings, hg, processString_of_strProject_some r vs ss hs],
      fun hn => by
        simp [Response.GetStrings, hg, processString_of_strProject_none r vs hn]⟩
  · intro hg; simp [Response.GetStrings, hg]
  · intro vs hg
    refine ⟨fun ss hs => by
        simp [Response.GetStringsAtIndex, hg,
          processString_of_strProject_some r vs ss hs], ?_⟩
    intro hn
    refine ⟨(r.processString vs).1, ?_⟩
    have h2 := processString_of_strProject_none r vs hn
    simp [Response.GetStringsAtIndex, hg]
    exact Prod.ext rfl h2
  · intro hg; simp [Response.GetStringsAtIndex, hg]
  · intro s rest hg; simp [Response.GetString, hg]
  · intro bad hg; simp [Response.GetString, hg]
  · intro hg; simp [Response.GetString, hg]
  · intro s rest hg; simp [Response.GetStringAtIndex, hg]
  · intro bad hg; simp [Response.GetStringAtIndex, hg]
  · intro hg; simp [Response.GetStringAtIndex, hg]

/-- A response whose payload has an all-strings key and a key with a
non-string element. -/
def rMixed : Response :=
  ⟨none, some ⟨1, false, [],
    .obj [("good", .arr [.str "a", .str "b"]), ("bad", .arr [.str "a", .num 1])],
    "", ""⟩, "", ""⟩

/-- Witness for claim C8: under `"good"` both elements are strings and
the plural and singular projections succeed; under `"bad"` one element is
numeric, so both fail. -/
theorem string_projection_spec_witness :
    rMixed.GetStrings "good" = (["a", "b"], true) ∧
    rMixed.GetString "good" = ("a", true) ∧
    (rMixed.GetStrings "bad").2 = false ∧
    rMixed.GetString "bad" = ("", false) := by
  have hgood := string_projection_spec rMixed 0 "good"
  have hbad := string_projection_spec rMixed 0 "bad"
  have h1 : rMixed.GetStrings "good" = (["a", "b"], true) :=
    (hgood.1 [.str "a", .str "b"] rfl).1 ["a", "b"] rfl
  have h2 : (rMixed.GetStrings "bad").2 = false :=
    (hbad.1 [.str "a", .num 1] rfl).2 rfl
  have h3 : rMixed.GetStrings "bad" = ((rMixed.GetStrings "bad").1, false) :=
    Prod.ext rfl h2
  exact ⟨h1, hgood.2.2.2.2.1 "a" ["b"] h1, h2,
    hbad.2.2.2.2.2.1 (rMixed.GetStrings "bad").1 h3⟩

end Freeipa






